import Mathlib

/-!
Verification of dob's time-reconciliation core against its source.

The definitions below are a shallow embedding of `src/dob/transcode.py`
(the import-path resolution passes inside `import_facts`) and of
`src/dob/create.py` (the batch save loop and the confirmation step).

Datetimes are modelled as `Int` minutes on an absolute axis (one day is
1440 minutes).  A Fact's `start`/`end` field in the Python source is either
`None`, a `datetime`, or a still-unparsed text token; the token has already
been classified here (`clock` for what `parse_clock_time` accepts, `delta`
for what `parse_relative_minutes` accepts), which mirrors the two parse
guards in `fix_clock_time_relative` / `fix_delta_time_relative`.
Fallible code (Python `assert` failures, `KeyError`, ill-typed datetime
comparisons on unresolved tokens) is modelled with `Option`: `Option.none`
is a crash.  Python object identity (`fact is conflict[0]`) is modelled by
the fact's `pk`, which the import path assigns as a distinct negative
placeholder per new fact.
-/

namespace Dob

/-- A `start`/`end` field of a Fact: absent (`None`), an absolute datetime
(minutes), a clock-time token (minutes past midnight, e.g. "14:30"), or a
signed minute-offset token (e.g. "+15"/"-10"). -/
inductive TimeSpec where
  | absent
  | abs (t : Int)
  | clock (c : Int)
  | delta (m : Int)
deriving Repr, DecidableEq

/-- A Fact record, restricted to the fields the time-reconciliation core
reads: the store key `pk` (None / negative placeholder / positive id), the
two time fields, and `dirty_reasons` (create.py reads it for "stopped"). -/
structure Fact where
  pk : Option Int
  start : TimeSpec
  end_ : TimeSpec
  dirty_reasons : List String := []
deriving Repr, DecidableEq

/-- The `which` field-name argument ('start' / 'end') threaded through the
transcode.py helpers. -/
inductive Which where
  | start
  | end_
deriving Repr, DecidableEq

/-- `getattr(fact, which)`. -/
def Fact.get (f : Fact) : Which → TimeSpec
  | Which.start => f.start
  | Which.end_ => f.end_

/-- `setattr(fact, which, v)`. -/
def Fact.set (f : Fact) : Which → TimeSpec → Fact
  | Which.start, v => { f with start := v }
  | Which.end_, v => { f with end_ := v }

/-- `at_oppo = 'end' if which == 'start' else 'start'`. -/
def Which.oppo : Which → Which
  | Which.start => Which.end_
  | Which.end_ => Which.start

/-- The reason string of a conflict triple appended by transcode.py. -/
inductive Reason where
  | cannotInferClock (which : Which)
  | cannotInferDelta (which : Which)
  | cannotInferBlank (which : Which)
  | startBeforePrevEnd
  | endAfterNextStart
  | startAfterEnd
deriving Repr, DecidableEq

/-- A conflict triple `(fact, other, reason)` as appended to the
`conflicts` list in `must_complete_times`. -/
structure Conflict where
  edited : Fact
  original : Option Fact
  reason : Reason
deriving Repr, DecidableEq

/-- Modelled from the spec: nark's `datetime_from_clock_after` (an external
helper, not in src/) — the occurrence of clock time `c` on the anchor's day
or the adjacent day that is nearest the anchor on or after it. -/
def datetime_from_clock_after (anchor : Int) (c : Int) : Int :=
  let cand := anchor - anchor % 1440 + c
  if anchor ≤ cand then cand else cand + 1440

/-- Modelled from the spec: nark's `datetime_from_clock_prior` (an external
helper, not in src/) — the occurrence of clock time `c` on the anchor's day
or the adjacent day that is nearest the anchor on or before it. -/
def datetime_from_clock_prior (anchor : Int) (c : Int) : Int :=
  let cand := anchor - anchor % 1440 + c
  if cand ≤ anchor then cand else cand - 1440

/-- `find_next_datetime(later_facts)` (transcode.py:511): scan forward for
the first field among the later facts that is an actual datetime, returning
it with the fact holding it. -/
def find_next_datetime : List Fact → Option (Int × Fact)
  | [] => Option.none
  | f :: rest =>
    match f.start with
    | TimeSpec.abs t => some (t, f)
    | _ =>
      match f.end_ with
      | TimeSpec.abs t => some (t, f)
      | _ => find_next_datetime rest

/-- `prev_and_later` (transcode.py:488): initial `prev_time` is the
antecedent stored fact's end, and `later_facts` is the new facts followed
by the subsequent stored fact.  A stored antecedent without a datetime end
(resp. subsequent without a datetime start) trips the source's asserts. -/
def prev_and_later (new_facts : List Fact) (ante seqt : Option Fact) :
    Option (Option Int × List Fact) := do
  let prev ←
    match ante with
    | Option.none => pure Option.none
    | some a =>
      match a.end_ with
      | TimeSpec.abs t => pure (some t)
      | _ => Option.none
  let later ←
    match seqt with
    | Option.none => pure new_facts
    | some s =>
      match s.start with
      | TimeSpec.abs _ => pure (new_facts ++ [s])
      | _ => Option.none
  pure (prev, later)

/-- The `prev_time` component of `prev_and_later`. -/
def ante_prev (ante : Option Fact) : Option (Option Int) :=
  match ante with
  | Option.none => some Option.none
  | some a =>
    match a.end_ with
    | TimeSpec.abs t => some (some t)
    | _ => Option.none

/-- The tail that `prev_and_later` appends after the new facts: the
subsequent stored fact, when there is one. -/
def seqt_tail (seqt : Option Fact) : Option (List Fact) :=
  match seqt with
  | Option.none => some []
  | some s =>
    match s.start with
    | TimeSpec.abs _ => some [s]
    | _ => Option.none

/-- The `dt_suss` computed by `infer_datetime_from_clock`
(transcode.py:550-569): prefer the fact's own opposite field, else
`prev_time`, else the next datetime found scanning forward. -/
def clock_dt_suss (clock_time : Int) (fact : Fact) (which : Which)
    (prev_time : Option Int) (later_facts : List Fact) : Option Int :=
  match fact.get which.oppo with
  | TimeSpec.abs d =>
    -- Prefer relative to fact's other time.
    match which with
    | Which.start => some (datetime_from_clock_prior d clock_time)
    | Which.end_ => some (datetime_from_clock_after d clock_time)
  | _ =>
    match prev_time with
    | some p => some (datetime_from_clock_after p clock_time)
    | Option.none =>
      -- Last resort: hunt for the next actual, factual real datetime.
      match find_next_datetime later_facts with
      | some (next_time, _) => some (datetime_from_clock_prior next_time clock_time)
      | Option.none => Option.none

/-- `infer_datetime_from_clock` (transcode.py:547).  Returns the updated
fact, the updated `prev_time`, and the conflict appended when no anchor
exists. -/
def infer_datetime_from_clock (clock_time : Int) (fact : Fact) (which : Which)
    (prev_time : Option Int) (later_facts : List Fact) :
    Fact × Option Int × Option Conflict :=
  match clock_dt_suss clock_time fact which prev_time later_facts with
  | some d => (fact.set which (TimeSpec.abs d), some d, Option.none)
  | Option.none =>
    (fact, prev_time, some ⟨fact, Option.none, Reason.cannotInferClock which⟩)

/-- `fix_clock_time_relative` (transcode.py:533): a datetime just advances
`prev_time`; a clock token is resolved; anything else is left alone. -/
def fix_clock_time_relative (fact : Fact) (which : Which) (prev_time : Option Int)
    (later_facts : List Fact) : Fact × Option Int × Option Conflict :=
  match fact.get which with
  | TimeSpec.absent => (fact, prev_time, Option.none)
  | TimeSpec.abs t => (fact, some t, Option.none)
  | TimeSpec.clock c => infer_datetime_from_clock c fact which prev_time later_facts
  | TimeSpec.delta _ => (fact, prev_time, Option.none)

/-- `fix_clock_times_relative` (transcode.py:521): walk the facts, popping
each from the front of `later_facts` (so `later = rest ++ seqtTail`),
fixing `start` then `end`, threading `prev_time` and collecting the
appended conflicts in order. -/
def fix_clock_list (seqtTail : List Fact) :
    Option Int → List Fact → List Fact × Option Int × List Conflict
  | prev, [] => ([], prev, [])
  | prev, f :: rest =>
    let later := rest ++ seqtTail
    let s1 := fix_clock_time_relative f Which.start prev later
    let s2 := fix_clock_time_relative s1.1 Which.end_ s1.2.1 later
    let r := fix_clock_list seqtTail s2.2.1 rest
    (s2.1 :: r.1, r.2.1, s1.2.2.toList ++ s2.2.2.toList ++ r.2.2)

/-- `infer_datetime_from_delta` (transcode.py:612): non-negative deltas add
to `prev_time`; a negative delta on a start whose own end is a datetime
subtracts from that end; other negative deltas subtract from the next
datetime found scanning forward. -/
def delta_dt_suss (delta_mins : Int) (fact : Fact) (which : Which)
    (prev_time : Option Int) (later_facts : List Fact) : Option Int :=
  -- If -delta, relative to *next* time; if +delta, relative to *prev* time.
  if 0 ≤ delta_mins then
    match prev_time with
    | some p => some (p + delta_mins)
    | Option.none => Option.none
  else
    match which, fact.end_ with
    | Which.start, TimeSpec.abs e => some (e + delta_mins)
    | _, _ =>
      match find_next_datetime later_facts with
      | some (next_time, _) => some (next_time + delta_mins)
      | Option.none => Option.none

/-- `infer_datetime_from_delta` assembled from its `dt_suss`
(transcode.py:632-642). -/
def infer_datetime_from_delta (delta_mins : Int) (fact : Fact) (which : Which)
    (prev_time : Option Int) (later_facts : List Fact) :
    Fact × Option Int × Option Conflict :=
  match delta_dt_suss delta_mins fact which prev_time later_facts with
  | some d => (fact.set which (TimeSpec.abs d), some d, Option.none)
  | Option.none =>
    (fact, prev_time, some ⟨fact, Option.none, Reason.cannotInferDelta which⟩)

/-- `fix_delta_time_relative` (transcode.py:598). -/
def fix_delta_time_relative (fact : Fact) (which : Which) (prev_time : Option Int)
    (later_facts : List Fact) : Fact × Option Int × Option Conflict :=
  match fact.get which with
  | TimeSpec.absent => (fact, prev_time, Option.none)
  | TimeSpec.abs t => (fact, some t, Option.none)
  | TimeSpec.clock _ => (fact, prev_time, Option.none)
  | TimeSpec.delta m => infer_datetime_from_delta m fact which prev_time later_facts

/-- `fix_delta_times_relative` (transcode.py:586). -/
def fix_delta_list (seqtTail : List Fact) :
    Option Int → List Fact → List Fact × Option Int × List Conflict
  | prev, [] => ([], prev, [])
  | prev, f :: rest =>
    let later := rest ++ seqtTail
    let s1 := fix_delta_time_relative f Which.start prev later
    let s2 := fix_delta_time_relative s1.1 Which.end_ s1.2.1 later
    let r := fix_delta_list seqtTail s2.2.1 rest
    (s2.1 :: r.1, r.2.1, s1.2.2.toList ++ s2.2.2.toList ++ r.2.2)

/-- `fix_blank_time_relative` (transcode.py:659): a present field must be a
datetime (the source asserts so — tokens crash) and advances `prev_time`;
a blank start takes `prev_time`; a blank end takes the next datetime found
forward, else the store's `now`. -/
def blank_dt_suss (now : Int) (which : Which) (prev_time : Option Int)
    (later_facts : List Fact) : Option Int :=
  match which with
  | Which.start => prev_time
  | Which.end_ =>
    match find_next_datetime later_facts with
    | some (n, _) => some n
    | Option.none => some now

/-- `fix_blank_time_relative` assembled from its `dt_suss`
(transcode.py:674-683). -/
def fix_blank_time_relative (now : Int) (fact : Fact) (which : Which)
    (prev_time : Option Int) (later_facts : List Fact) :
    Option (Fact × Option Int × Option Conflict) :=
  match fact.get which with
  | TimeSpec.abs t => some (fact, some t, Option.none)
  | TimeSpec.absent =>
    match blank_dt_suss now which prev_time later_facts with
    | some d => some (fact.set which (TimeSpec.abs d), some d, Option.none)
    | Option.none =>
      some (fact, prev_time, some ⟨fact, Option.none, Reason.cannotInferBlank which⟩)
  | _ => Option.none

/-- `fix_blank_times_relative` (transcode.py:646), including its
`assert fact.start or fact.end`. -/
def fix_blank_list (now : Int) (seqtTail : List Fact) :
    Option Int → List Fact → Option (List Fact × Option Int × List Conflict)
  | prev, [] => some ([], prev, [])
  | prev, f :: rest =>
    if f.start = TimeSpec.absent ∧ f.end_ = TimeSpec.absent then Option.none
    else do
      let later := rest ++ seqtTail
      let s1 ← fix_blank_time_relative now f Which.start prev later
      let s2 ← fix_blank_time_relative now s1.1 Which.end_ s1.2.1 later
      let r ← fix_blank_list now seqtTail s2.2.1 rest
      pure (s2.1 :: r.1, r.2.1, s1.2.2.toList ++ s2.2.2.toList ++ r.2.2)

/-- `verify_datetimes_missing_already_caught` (transcode.py:726): the
filter `fact is conflict[0]`, with object identity rendered as `pk`
equality. -/
def already_caught (fact : Fact) (conflicts : List Conflict) : Bool :=
  conflicts.any fun c => decide (c.edited.pk = fact.pk)

/-- One iteration of `verify_datetimes_sanity` (transcode.py:689) for
`fact` with `later` the remaining facts plus the subsequent stored fact.
An absent field must have been caught by an earlier pass (else the
source's assert fires); an unresolved token field would be compared
against a datetime, which is ill-typed — a crash as well. -/
def verify_sanity_step (fact : Fact) (later : List Fact) (prev_time : Option Int)
    (prev_fact : Option Fact) (conflicts : List Conflict) :
    Option (Option Int × List Conflict) := do
  let s1 ←
    match fact.start with
    | TimeSpec.absent =>
      if already_caught fact conflicts then pure (prev_time, conflicts) else Option.none
    | TimeSpec.abs s =>
      let cs :=
        match prev_time with
        | some p =>
          if s < p then conflicts ++ [⟨fact, prev_fact, Reason.startBeforePrevEnd⟩]
          else conflicts
        | Option.none => conflicts
      pure (some s, cs)
    | _ => Option.none
  let s2 ←
    match fact.end_ with
    | TimeSpec.absent =>
      if already_caught fact s1.2 then pure (s1.1, s1.2) else Option.none
    | TimeSpec.abs e =>
      let cs :=
        match find_next_datetime later with
        | some (n, nf) =>
          if n < e then s1.2 ++ [⟨fact, some nf, Reason.endAfterNextStart⟩]
          else s1.2
        | Option.none => s1.2
      pure (some e, cs)
    | _ => Option.none
  let s3 :=
    match fact.start, fact.end_ with
    | TimeSpec.abs s, TimeSpec.abs e =>
      if e < s then s2.2 ++ [⟨fact, Option.none, Reason.startAfterEnd⟩]
      else s2.2
    | _, _ => s2.2
  pure (s2.1, s3)

/-- `verify_datetimes_sanity` over the whole sequence, threading
`prev_time`, `prev_fact` and the accumulated conflicts. -/
def verify_sanity_list (seqtTail : List Fact) :
    Option Int → Option Fact → List Conflict → List Fact → Option (List Conflict)
  | _, _, conflicts, [] => some conflicts
  | prev, prev_fact, conflicts, f :: rest => do
    let s ← verify_sanity_step f (rest ++ seqtTail) prev prev_fact conflicts
    verify_sanity_list seqtTail s.1 (some f) s.2 rest

/-- `must_complete_times` (transcode.py:447): clock pass, delta pass,
blank pass, then the sanity check, all appending to one conflicts list.
Returns the fixed facts and the final conflicts (the caller barfs when the
list is non-empty). -/
def must_complete_times (now : Int) (ante seqt : Option Fact)
    (new_facts : List Fact) : Option (List Fact × List Conflict) :=
  if new_facts.isEmpty then some ([], [])
  else do
    let prev0 ← ante_prev ante
    let tail ← seqt_tail seqt
    let r1 := fix_clock_list tail prev0 new_facts
    let r2 := fix_delta_list tail prev0 r1.1
    let r3 ← fix_blank_list now tail prev0 r2.1
    let cs ← verify_sanity_list tail prev0 ante (r1.2.2 ++ r2.2.2 ++ r3.2.2) r3.1
    pure (r3.1, cs)

/-- Outcome of one run of `_import_facts` (transcode.py:182) after
hydration: crash, abort on internal conflicts (`barf_on_overlapping_facts_new`
exits before the store check and before anything is persisted), abort on
store conflicts (`barf_on_overlapping_facts_old`), or reaching
`prompt_and_save` with the completed facts. -/
inductive ImportOutcome where
  | crashed
  | abortedInternal (conflicts : List Conflict)
  | abortedExisting (checked : List Fact)
  | reachedSave (checked : List Fact) (facts : List Fact)
deriving Repr, DecidableEq

/-- `_import_facts` (transcode.py:182) from `must_complete_times` onward.
`mend_verify_both` stands for `mend_facts_times(controller, fact,
time_hint='verify_both')` of `must_not_conflict_existing` — the store-side
check, whose internals live outside this core; only whether and on what it
runs is modelled. -/
def _import_facts (now : Int) (ante seqt : Option Fact)
    (mend_verify_both : Fact → List Conflict) (new_facts : List Fact) :
    ImportOutcome :=
  match must_complete_times now ante seqt new_facts with
  | Option.none => ImportOutcome.crashed
  | some (facts, conflicts) =>
    if conflicts.isEmpty then
      if (facts.filter fun f => !(mend_verify_both f).isEmpty).isEmpty then
        ImportOutcome.reachedSave facts facts
      else
        ImportOutcome.abortedExisting facts
    else
      ImportOutcome.abortedInternal conflicts

/-- The two time hints the batch save loop selects between
(create.py:797). -/
inductive TimeHint where
  | verify_both
  | verify_last
deriving Repr, DecidableEq

/-- The pk mutation `save_fact` (create.py:413) applies to a fact it
persists: a negative placeholder pk is cleared before the store assigns a
fresh identity to the saved row. -/
def save_fact_pk (f : Fact) : Fact :=
  match f.pk with
  | some p => if p < 0 then { f with pk := Option.none } else f
  | Option.none => f

/-- Modelled from the spec: `mend_fact_timey_wimey` (dob/helpers/fix_times,
not under src/) returns the mended fact among the facts_to_save (§4.3), so
persisting through persist_fact_save → mend_facts_confirm_and_save_maybe →
save_facts_maybe applies `save_fact`'s pk clearing to the loop's fact. -/
def persist_fact_effect (f : Fact) : Fact := save_fact_pk f

/-- The key record_ready_facts deletes after persisting a fact:
`fact.pk is not None and fact.pk or fact_pk` (create.py:724) — the live pk
while still truthy, else the pre-save placeholder key. -/
def del_other_edits_key (pkNow fact_pk : Option Int) : Option Int :=
  match pkNow with
  | some p => if p ≠ 0 then some p else fact_pk
  | Option.none => fact_pk

/-- Python `del d[k]` on the other_edits dict: `KeyError` when absent. -/
def dict_del (k : Option Int) : List (Option Int × Fact) → Option (List (Option Int × Fact))
  | [] => Option.none
  | (k', v) :: rest =>
    if k' = k then some rest
    else (dict_del k rest).map fun m => (k', v) :: m

/-- Python dict insertion, for the comprehension
`{fact.pk: fact for fact in ready_facts}` (create.py:703). -/
def dict_insert (k : Option Int) (v : Fact) :
    List (Option Int × Fact) → List (Option Int × Fact)
  | [] => [(k, v)]
  | (k', v') :: rest => if k' = k then (k, v) :: rest else (k', v') :: dict_insert k v rest

/-- The save loop of record_ready_facts (create.py:705) on the not-dry,
save-to-store branch of persist_fact: each fact is mended and persisted via
mend_facts_confirm_and_save_maybe with hint verify_both — verify_last for
the final index — and its other_edits key is deleted right after.  Returns
the trace of (fact, hint) mend calls and the final other_edits;
`Option.none` is a KeyError. -/
def record_go (ready_len : Nat) :
    Nat → List (Option Int × Fact) → List Fact →
    Option (List (Fact × TimeHint) × List (Option Int × Fact))
  | _, other_edits, [] => some ([], other_edits)
  | idx, other_edits, fact :: rest => do
    let hint := if idx = ready_len - 1 then TimeHint.verify_last else TimeHint.verify_both
    let fact_pk := fact.pk
    let saved := persist_fact_effect fact
    let oe ← dict_del (del_other_edits_key saved.pk fact_pk) other_edits
    let r ← record_go ready_len (idx + 1) oe rest
    pure ((fact, hint) :: r.1, r.2)

/-- record_ready_facts (create.py:697): build other_edits from the ready
facts, run the save loop, and `assert len(other_edits) == 0` at batch
end. -/
def record_ready_facts (ready : List Fact) :
    Option (List (Fact × TimeHint) × List (Option Int × Fact)) := do
  let other_edits := ready.foldl (fun m f => dict_insert f.pk f m) []
  let r ← record_go ready.length 0 other_edits ready
  if r.2.isEmpty then pure r else Option.none

/-- An (edited_fact, original) pair as handed to
must_confirm_fact_edits. -/
structure EditConflict where
  edited : Fact
  original : Fact
deriving Repr, DecidableEq

/-- cull_stopped_ongoing (create.py:343): drop the conflicts whose edited
fact carries dirty reason "stopped" (the auto-closed ongoing fact). -/
def cull_stopped_ongoing (conflicts : List EditConflict) : List EditConflict :=
  conflicts.filter fun con => decide ("stopped" ∉ con.edited.dirty_reasons)

/-- Outcome of must_confirm_fact_edits, with the conflicts the user was
actually prompted about; `abortRetry` is the dob_in_user_exit("Please try
again.") path, which stops the operation before anything is persisted. -/
inductive ConfirmOutcome where
  | proceed (prompted : List EditConflict)
  | abortRetry (prompted : List EditConflict)
deriving Repr, DecidableEq

/-- The counting loop of _must_confirm_fact_edits (create.py:321):
n_conflict counts every conflict; when prompting (not yes), n_confirms
counts confirmed answers.  `answers n` is the user's response to prompt
number n (1-based, matching the displayed n_conflict). -/
def confirm_loop (answers : Nat → Bool) (yes : Bool) :
    List EditConflict → Nat → Nat → Nat × Nat
  | [], n_conflict, n_confirms => (n_conflict, n_confirms)
  | _ :: rest, n_conflict, n_confirms =>
    let nc := n_conflict + 1
    let nf :=
      if !yes then (if answers nc then n_confirms + 1 else n_confirms)
      else n_confirms
    confirm_loop answers yes rest nc nf

/-- must_confirm_fact_edits (create.py:309). -/
def must_confirm_fact_edits (answers : Nat → Bool)
    (conflicts : List EditConflict) (yes dry : Bool) : ConfirmOutcome :=
  let culled := cull_stopped_ongoing conflicts
  if culled.isEmpty then ConfirmOutcome.proceed []
  else
    let yes2 := yes || dry
    let prompted := if yes2 then [] else culled
    let r := confirm_loop answers yes2 culled 0 0
    if r.1 ≠ r.2 then ConfirmOutcome.abortRetry prompted
    else ConfirmOutcome.proceed prompted

/-- The conflicts the user was prompted about in a ConfirmOutcome. -/
def prompted_of : ConfirmOutcome → List EditConflict
  | ConfirmOutcome.proceed p => p
  | ConfirmOutcome.abortRetry p => p

/-- The internal conflicts an import run aborted on (empty otherwise). -/
def internal_conflicts : ImportOutcome → List Conflict
  | ImportOutcome.abortedInternal cs => cs
  | _ => []

/-! ## Theorems -/

/-- C9: resolution of an already-absolute time field is the identity — both
the clock-time pass step and the minute-offset pass step leave the fact
unchanged, emit no conflict, and only advance the running prev_time anchor
to the field's value. -/
theorem C9_absolute_resolution_identity (fact : Fact) (which : Which) (t : Int)
    (prev_time : Option Int) (later_facts : List Fact)
    (h : fact.get which = TimeSpec.abs t) :
    fix_clock_time_relative fact which prev_time later_facts
      = (fact, some t, Option.none)
    ∧ fix_delta_time_relative fact which prev_time later_facts
      = (fact, some t, Option.none) := by
  constructor <;> simp [fix_clock_time_relative, fix_delta_time_relative, h]

/-- C9 witness: a start field already holding the absolute time 7 passes
through both resolution steps unchanged. -/
theorem C9_absolute_resolution_identity_witness :
    fix_clock_time_relative ⟨some (-1), TimeSpec.abs 7, TimeSpec.absent, []⟩
        Which.start (some 3) [] = (⟨some (-1), TimeSpec.abs 7, TimeSpec.absent, []⟩, some 7, Option.none)
    ∧ fix_delta_time_relative ⟨some (-1), TimeSpec.abs 7, TimeSpec.absent, []⟩
        Which.start (some 3) [] = (⟨some (-1), TimeSpec.abs 7, TimeSpec.absent, []⟩, some 7, Option.none) :=
  C9_absolute_resolution_identity _ Which.start 7 _ _ rfl

/-- C2: clock-time resolution follows the precedence: (a) a start token
with the fact's own end absolute resolves to the closest occurrence before
that end, and an end token with the start absolute to the closest
occurrence after that start; (b) otherwise, with prev_time known, to the
closest occurrence after prev_time; (c) otherwise to the closest occurrence
before the next absolute timestamp found scanning forward through the
later facts (which include the subsequent stored fact). -/
theorem C2_clock_resolution_precedence (c : Int) (fact : Fact)
    (prev_time : Option Int) (later_facts : List Fact) :
    (∀ d, fact.end_ = TimeSpec.abs d →
      infer_datetime_from_clock c fact Which.start prev_time later_facts =
        (fact.set Which.start (TimeSpec.abs (datetime_from_clock_prior d c)),
         some (datetime_from_clock_prior d c), Option.none))
    ∧ (∀ d, fact.start = TimeSpec.abs d →
      infer_datetime_from_clock c fact Which.end_ prev_time later_facts =
        (fact.set Which.end_ (TimeSpec.abs (datetime_from_clock_after d c)),
         some (datetime_from_clock_after d c), Option.none))
    ∧ (∀ which p, (∀ t, fact.get which.oppo ≠ TimeSpec.abs t) →
      prev_time = some p →
      infer_datetime_from_clock c fact which prev_time later_facts =
        (fact.set which (TimeSpec.abs (datetime_from_clock_after p c)),
         some (datetime_from_clock_after p c), Option.none))
    ∧ (∀ which n nf, (∀ t, fact.get which.oppo ≠ TimeSpec.abs t) →
      prev_time = Option.none →
      find_next_datetime later_facts = some (n, nf) →
      infer_datetime_from_clock c fact which prev_time later_facts =
        (fact.set which (TimeSpec.abs (datetime_from_clock_prior n c)),
         some (datetime_from_clock_prior n c), Option.none)) := by
  refine ⟨?_, ?_, ?_, ?_⟩
  · intro d h
    simp [infer_datetime_from_clock, clock_dt_suss, Which.oppo, Fact.get, h]
  · intro d h
    simp [infer_datetime_from_clock, clock_dt_suss, Which.oppo, Fact.get, h]
  · intro which p hne hp
    subst hp
    cases hop : fact.get which.oppo with
    | abs t => exact absurd hop (hne t)
    | absent => simp [infer_datetime_from_clock, clock_dt_suss, hop]
    | clock c' => simp [infer_datetime_from_clock, clock_dt_suss, hop]
    | delta m => simp [infer_datetime_from_clock, clock_dt_suss, hop]
  · intro which n nf hne hp hfind
    subst hp
    cases hop : fact.get which.oppo with
    | abs t => exact absurd hop (hne t)
    | absent => simp [infer_datetime_from_clock, clock_dt_suss, hop, hfind]
    | clock c' => simp [infer_datetime_from_clock, clock_dt_suss, hop, hfind]
    | delta m => simp [infer_datetime_from_clock, clock_dt_suss, hop, hfind]

/-- C2 witness: (a) start "14:30" (870) against own absolute end 2000
resolves to the prior occurrence 870; (b) start "14:30" with prev_time 540
resolves to the occurrence after, 870; (c) start "14:30" with no anchor but
a later fact starting at 40 resolves to the prior occurrence, -570. -/
theorem C2_clock_resolution_precedence_witness :
    infer_datetime_from_clock 870 ⟨some (-1), TimeSpec.clock 870, TimeSpec.abs 2000, []⟩
        Which.start Option.none [] =
      (⟨some (-1), TimeSpec.abs 870, TimeSpec.abs 2000, []⟩, some 870, Option.none)
    ∧ infer_datetime_from_clock 870 ⟨some (-1), TimeSpec.clock 870, TimeSpec.absent, []⟩
        Which.start (some 540) [] =
      (⟨some (-1), TimeSpec.abs 870, TimeSpec.absent, []⟩, some 870, Option.none)
    ∧ infer_datetime_from_clock 870 ⟨some (-1), TimeSpec.clock 870, TimeSpec.absent, []⟩
        Which.start Option.none [⟨some (-2), TimeSpec.abs 40, TimeSpec.abs 50, []⟩] =
      (⟨some (-1), TimeSpec.abs (-570), TimeSpec.absent, []⟩, some (-570), Option.none) := by
  refine ⟨?_, ?_, ?_⟩
  · have h := (C2_clock_resolution_precedence 870
      ⟨some (-1), TimeSpec.clock 870, TimeSpec.abs 2000, []⟩ Option.none []).1 2000 rfl
    simpa [Fact.set] using h
  · have h := (C2_clock_resolution_precedence 870
      ⟨some (-1), TimeSpec.clock 870, TimeSpec.absent, []⟩ (some 540) []).2.2.1
      Which.start 540 (by intro t ht; simp [Fact.get, Which.oppo] at ht) rfl
    simpa [Fact.set] using h
  · have h := (C2_clock_resolution_precedence 870
      ⟨some (-1), TimeSpec.clock 870, TimeSpec.absent, []⟩ Option.none
      [⟨some (-2), TimeSpec.abs 40, TimeSpec.abs 50, []⟩]).2.2.2
      Which.start 40 ⟨some (-2), TimeSpec.abs 40, TimeSpec.abs 50, []⟩
      (by intro t ht; simp [Fact.get, Which.oppo] at ht) rfl rfl
    simpa [Fact.set] using h

/-- C3: a non-negative minute offset resolves to prev_time plus the offset
(and fails with a cannot-infer conflict when prev_time is unknown); a
negative offset on a start whose own end is absolute resolves to that end
plus the (negative) offset; any other negative offset resolves to the next
absolute timestamp found scanning forward plus the offset. -/
theorem C3_delta_resolution (m : Int) (fact : Fact) (which : Which)
    (prev_time : Option Int) (later_facts : List Fact) :
    (∀ p, 0 ≤ m → prev_time = some p →
      infer_datetime_from_delta m fact which prev_time later_facts =
        (fact.set which (TimeSpec.abs (p + m)), some (p + m), Option.none))
    ∧ (0 ≤ m → prev_time = Option.none →
      infer_datetime_from_delta m fact which prev_time later_facts =
        (fact, Option.none, some ⟨fact, Option.none, Reason.cannotInferDelta which⟩))
    ∧ (∀ e, m < 0 → fact.end_ = TimeSpec.abs e →
      infer_datetime_from_delta m fact Which.start prev_time later_facts =
        (fact.set Which.start (TimeSpec.abs (e + m)), some (e + m), Option.none))
    ∧ (∀ n nf, m < 0 → (which = Which.start → ∀ t, fact.end_ ≠ TimeSpec.abs t) →
      find_next_datetime later_facts = some (n, nf) →
      infer_datetime_from_delta m fact which prev_time later_facts =
        (fact.set which (TimeSpec.abs (n + m)), some (n + m), Option.none)) := by
  refine ⟨?_, ?_, ?_, ?_⟩
  · intro p h0 hp
    simp [infer_datetime_from_delta, delta_dt_suss, h0, hp]
  · intro h0 hp
    simp [infer_datetime_from_delta, delta_dt_suss, h0, hp]
  · intro e hm he
    simp [infer_datetime_from_delta, delta_dt_suss, he, not_le.mpr hm]
  · intro n nf hm hne hfind
    cases which with
    | start =>
      cases he : fact.end_ with
      | abs t => exact absurd he (hne rfl t)
      | absent => simp [infer_datetime_from_delta, delta_dt_suss, he, not_le.mpr hm, hfind]
      | clock c' => simp [infer_datetime_from_delta, delta_dt_suss, he, not_le.mpr hm, hfind]
      | delta m' => simp [infer_datetime_from_delta, delta_dt_suss, he, not_le.mpr hm, hfind]
    | end_ =>
      cases he : fact.end_ with
      | abs t => simp [infer_datetime_from_delta, delta_dt_suss, he, not_le.mpr hm, hfind]
      | absent => simp [infer_datetime_from_delta, delta_dt_suss, he, not_le.mpr hm, hfind]
      | clock c' => simp [infer_datetime_from_delta, delta_dt_suss, he, not_le.mpr hm, hfind]
      | delta m' => simp [infer_datetime_from_delta, delta_dt_suss, he, not_le.mpr hm, hfind]

/-- C3 witness: "+30" as start with prev_time 100 yields 130; "-15" as
start with the fact's own end 1000 yields 985. -/
theorem C3_delta_resolution_witness :
    infer_datetime_from_delta 30 ⟨some (-1), TimeSpec.delta 30, TimeSpec.absent, []⟩
        Which.start (some 100) [] =
      (⟨some (-1), TimeSpec.abs 130, TimeSpec.absent, []⟩, some 130, Option.none)
    ∧ infer_datetime_from_delta (-15) ⟨some (-1), TimeSpec.delta (-15), TimeSpec.abs 1000, []⟩
        Which.start Option.none [] =
      (⟨some (-1), TimeSpec.abs 985, TimeSpec.abs 1000, []⟩, some 985, Option.none) := by
  constructor
  · have h := (C3_delta_resolution 30 ⟨some (-1), TimeSpec.delta 30, TimeSpec.absent, []⟩
      Which.start (some 100) []).1 100 (by decide) rfl
    simpa [Fact.set] using h
  · have h := (C3_delta_resolution (-15) ⟨some (-1), TimeSpec.delta (-15), TimeSpec.abs 1000, []⟩
      Which.start Option.none []).2.2.1 1000 (by decide) rfl
    have : (985 : Int) = 1000 + (-15) := by decide
    simpa [Fact.set, this] using h

theorem Fact.set_pk (f : Fact) (w : Which) (v : TimeSpec) : (f.set w v).pk = f.pk := by
  cases w <;> rfl

theorem fix_clock_step_pk (f : Fact) (w : Which) (p : Option Int) (l : List Fact) :
    (fix_clock_time_relative f w p l).1.pk = f.pk := by
  cases hg : f.get w with
  | absent => simp [fix_clock_time_relative, hg]
  | abs t => simp [fix_clock_time_relative, hg]
  | delta m => simp [fix_clock_time_relative, hg]
  | clock c =>
    cases hs : clock_dt_suss c f w p l with
    | none => simp [fix_clock_time_relative, hg, infer_datetime_from_clock, hs]
    | some d => simp [fix_clock_time_relative, hg, infer_datetime_from_clock, hs, Fact.set_pk]

theorem fix_delta_step_pk (f : Fact) (w : Which) (p : Option Int) (l : List Fact) :
    (fix_delta_time_relative f w p l).1.pk = f.pk := by
  cases hg : f.get w with
  | absent => simp [fix_delta_time_relative, hg]
  | abs t => simp [fix_delta_time_relative, hg]
  | clock c => simp [fix_delta_time_relative, hg]
  | delta m =>
    cases hs : delta_dt_suss m f w p l with
    | none => simp [fix_delta_time_relative, hg, infer_datetime_from_delta, hs]
    | some d => simp [fix_delta_time_relative, hg, infer_datetime_from_delta, hs, Fact.set_pk]

theorem fix_clock_step_conflict (f : Fact) (w : Which) (p : Option Int) (l : List Fact)
    (conf : Conflict) (h : (fix_clock_time_relative f w p l).2.2 = some conf) :
    conf = ⟨f, Option.none, Reason.cannotInferClock w⟩ := by
  cases hg : f.get w with
  | absent => simp [fix_clock_time_relative, hg] at h
  | abs t => simp [fix_clock_time_relative, hg] at h
  | delta m => simp [fix_clock_time_relative, hg] at h
  | clock c =>
    cases hs : clock_dt_suss c f w p l with
    | some d => simp [fix_clock_time_relative, hg, infer_datetime_from_clock, hs] at h
    | none =>
      simp [fix_clock_time_relative, hg, infer_datetime_from_clock, hs] at h
      exact h.symm

theorem fix_delta_step_conflict (f : Fact) (w : Which) (p : Option Int) (l : List Fact)
    (conf : Conflict) (h : (fix_delta_time_relative f w p l).2.2 = some conf) :
    conf = ⟨f, Option.none, Reason.cannotInferDelta w⟩ := by
  cases hg : f.get w with
  | absent => simp [fix_delta_time_relative, hg] at h
  | abs t => simp [fix_delta_time_relative, hg] at h
  | clock c => simp [fix_delta_time_relative, hg] at h
  | delta m =>
    cases hs : delta_dt_suss m f w p l with
    | some d => simp [fix_delta_time_relative, hg, infer_datetime_from_delta, hs] at h
    | none =>
      simp [fix_delta_time_relative, hg, infer_datetime_from_delta, hs] at h
      exact h.symm

/-- C5: a relative token with no usable anchor is not an error — the
resolver returns (fact and prev_time untouched) with a conflict whose
edited fact is the affected fact, whose original is None and whose reason
is the cannot-infer reason for the field; and each resolution pass
processes the rest of the sequence after such a failure, appending the
remaining facts' conflicts after the failed fact's own. -/
theorem C5_unresolvable_collected (c : Int) (fact : Fact) (which : Which)
    (prev_time : Option Int) (later_facts : List Fact) :
    (∀ conf, (infer_datetime_from_clock c fact which prev_time later_facts).2.2 = some conf →
      conf = ⟨fact, Option.none, Reason.cannotInferClock which⟩
      ∧ (infer_datetime_from_clock c fact which prev_time later_facts).1 = fact
      ∧ (infer_datetime_from_clock c fact which prev_time later_facts).2.1 = prev_time)
    ∧ (∀ conf, (infer_datetime_from_delta c fact which prev_time later_facts).2.2 = some conf →
      conf = ⟨fact, Option.none, Reason.cannotInferDelta which⟩
      ∧ (infer_datetime_from_delta c fact which prev_time later_facts).1 = fact
      ∧ (infer_datetime_from_delta c fact which prev_time later_facts).2.1 = prev_time)
    ∧ (∀ (f : Fact) (rest tail : List Fact) (prev : Option Int), ∃ cs1 prev2,
        (fix_clock_list tail prev (f :: rest)).2.2
          = cs1 ++ (fix_clock_list tail prev2 rest).2.2
        ∧ ∀ conf ∈ cs1, conf.original = Option.none
            ∧ conf.edited.pk = f.pk
            ∧ ∃ w, conf.reason = Reason.cannotInferClock w)
    ∧ (∀ (f : Fact) (rest tail : List Fact) (prev : Option Int), ∃ cs1 prev2,
        (fix_delta_list tail prev (f :: rest)).2.2
          = cs1 ++ (fix_delta_list tail prev2 rest).2.2
        ∧ ∀ conf ∈ cs1, conf.original = Option.none
            ∧ conf.edited.pk = f.pk
            ∧ ∃ w, conf.reason = Reason.cannotInferDelta w) := by
  refine ⟨?_, ?_, ?_, ?_⟩
  · intro conf h
    cases hs : clock_dt_suss c fact which prev_time later_facts with
    | some d => simp [infer_datetime_from_clock, hs] at h
    | none =>
      simp [infer_datetime_from_clock, hs] at h ⊢
      exact h.symm
  · intro conf h
    cases hs : delta_dt_suss c fact which prev_time later_facts with
    | some d => simp [infer_datetime_from_delta, hs] at h
    | none =>
      simp [infer_datetime_from_delta, hs] at h ⊢
      exact h.symm
  · intro f rest tail prev
    refine ⟨(fix_clock_time_relative f Which.start prev (rest ++ tail)).2.2.toList
      ++ (fix_clock_time_relative
            (fix_clock_time_relative f Which.start prev (rest ++ tail)).1 Which.end_
            (fix_clock_time_relative f Which.start prev (rest ++ tail)).2.1
            (rest ++ tail)).2.2.toList,
      (fix_clock_time_relative
        (fix_clock_time_relative f Which.start prev (rest ++ tail)).1 Which.end_
        (fix_clock_time_relative f Which.start prev (rest ++ tail)).2.1
        (rest ++ tail)).2.1, ?_, ?_⟩
    · simp [fix_clock_list]
    · intro conf hmem
      rcases List.mem_append.mp hmem with hm | hm
      · rcases Option.mem_toList.mp hm with hm'
        have := fix_clock_step_conflict _ _ _ _ _ hm'
        subst this
        exact ⟨rfl, rfl, Which.start, rfl⟩
      · rcases Option.mem_toList.mp hm with hm'
        have hsh := fix_clock_step_conflict _ _ _ _ _ hm'
        subst hsh
        refine ⟨rfl, ?_, Which.end_, rfl⟩
        exact fix_clock_step_pk f Which.start prev (rest ++ tail)
  · intro f rest tail prev
    refine ⟨(fix_delta_time_relative f Which.start prev (rest ++ tail)).2.2.toList
      ++ (fix_delta_time_relative
            (fix_delta_time_relative f Which.start prev (rest ++ tail)).1 Which.end_
            (fix_delta_time_relative f Which.start prev (rest ++ tail)).2.1
            (rest ++ tail)).2.2.toList,
      (fix_delta_time_relative
        (fix_delta_time_relative f Which.start prev (rest ++ tail)).1 Which.end_
        (fix_delta_time_relative f Which.start prev (rest ++ tail)).2.1
        (rest ++ tail)).2.1, ?_, ?_⟩
    · simp [fix_delta_list]
    · intro conf hmem
      rcases List.mem_append.mp hmem with hm | hm
      · rcases Option.mem_toList.mp hm with hm'
        have := fix_delta_step_conflict _ _ _ _ _ hm'
        subst this
        exact ⟨rfl, rfl, Which.start, rfl⟩
      · rcases Option.mem_toList.mp hm with hm'
        have hsh := fix_delta_step_conflict _ _ _ _ _ hm'
        subst hsh
        refine ⟨rfl, ?_, Which.end_, rfl⟩
        exact fix_delta_step_pk f Which.start prev (rest ++ tail)

/-- C5 witness: a clock token with no anchor at all, and a "+30" token with
no prev_time, each yield the cannot-infer conflict with original None while
leaving the fact and prev_time untouched. -/
theorem C5_unresolvable_collected_witness :
    (⟨⟨some (-1), TimeSpec.clock 870, TimeSpec.absent, []⟩, Option.none,
        Reason.cannotInferClock Which.start⟩ : Conflict)
      = ⟨⟨some (-1), TimeSpec.clock 870, TimeSpec.absent, []⟩, Option.none,
          Reason.cannotInferClock Which.start⟩
    ∧ (infer_datetime_from_clock 870 ⟨some (-1), TimeSpec.clock 870, TimeSpec.absent, []⟩
        Which.start Option.none []).1 = ⟨some (-1), TimeSpec.clock 870, TimeSpec.absent, []⟩
    ∧ (infer_datetime_from_clock 870 ⟨some (-1), TimeSpec.clock 870, TimeSpec.absent, []⟩
        Which.start Option.none []).2.1 = Option.none :=
  (C5_unresolvable_collected 870 ⟨some (-1), TimeSpec.clock 870, TimeSpec.absent, []⟩
    Which.start Option.none []).1 _ rfl

/-- C10: the blank-fill pass of the import path fills a still-absent start
with the running prev_time and a still-absent end with the next datetime
found among the later facts, defaulting the end to the caller-supplied
"now" when none exists; a cannot-infer conflict for a blank field arises
exactly for a blank start with no preceding time. -/
theorem C10_blank_fill (now : Int) (fact : Fact) (which : Which)
    (prev_time : Option Int) (later_facts : List Fact) :
    (∀ p, fact.start = TimeSpec.absent → prev_time = some p →
      fix_blank_time_relative now fact Which.start prev_time later_facts =
        some (fact.set Which.start (TimeSpec.abs p), some p, Option.none))
    ∧ (fact.start = TimeSpec.absent → prev_time = Option.none →
      fix_blank_time_relative now fact Which.start prev_time later_facts =
        some (fact, Option.none,
          some ⟨fact, Option.none, Reason.cannotInferBlank Which.start⟩))
    ∧ (∀ n nf, fact.end_ = TimeSpec.absent →
      find_next_datetime later_facts = some (n, nf) →
      fix_blank_time_relative now fact Which.end_ prev_time later_facts =
        some (fact.set Which.end_ (TimeSpec.abs n), some n, Option.none))
    ∧ (fact.end_ = TimeSpec.absent → find_next_datetime later_facts = Option.none →
      fix_blank_time_relative now fact Which.end_ prev_time later_facts =
        some (fact.set Which.end_ (TimeSpec.abs now), some now, Option.none))
    ∧ (∀ r conf, fix_blank_time_relative now fact which prev_time later_facts = some r →
      r.2.2 = some conf →
      which = Which.start ∧ prev_time = Option.none ∧ fact.start = TimeSpec.absent
      ∧ conf = ⟨fact, Option.none, Reason.cannotInferBlank Which.start⟩) := by
  refine ⟨?_, ?_, ?_, ?_, ?_⟩
  · intro p hs hp
    simp [fix_blank_time_relative, blank_dt_suss, Fact.get, hs, hp]
  · intro hs hp
    simp [fix_blank_time_relative, blank_dt_suss, Fact.get, hs, hp]
  · intro n nf he hfind
    simp [fix_blank_time_relative, blank_dt_suss, Fact.get, he, hfind]
  · intro he hfind
    simp [fix_blank_time_relative, blank_dt_suss, Fact.get, he, hfind]
  · intro r conf hr hc
    cases which with
    | start =>
      cases hs : fact.start with
      | absent =>
        cases hp : prev_time with
        | some p =>
          simp [fix_blank_time_relative, blank_dt_suss, Fact.get, hs, hp] at hr
          subst hr
          simp at hc
        | none =>
          simp [fix_blank_time_relative, blank_dt_suss, Fact.get, hs, hp] at hr
          subst hr
          simp at hc
          exact ⟨rfl, rfl, rfl, hc.symm⟩
      | abs t =>
        simp [fix_blank_time_relative, Fact.get, hs] at hr
        subst hr
        simp at hc
      | clock c => simp [fix_blank_time_relative, Fact.get, hs] at hr
      | delta m => simp [fix_blank_time_relative, Fact.get, hs] at hr
    | end_ =>
      cases he : fact.end_ with
      | absent =>
        cases hfind : find_next_datetime later_facts with
        | some nn =>
          simp [fix_blank_time_relative, blank_dt_suss, Fact.get, he, hfind] at hr
          subst hr
          simp at hc
        | none =>
          simp [fix_blank_time_relative, blank_dt_suss, Fact.get, he, hfind] at hr
          subst hr
          simp at hc
      | abs t =>
        simp [fix_blank_time_relative, Fact.get, he] at hr
        subst hr
        simp at hc
      | clock c => simp [fix_blank_time_relative, Fact.get, he] at hr
      | delta m => simp [fix_blank_time_relative, Fact.get, he] at hr

/-- C10 witness: a blank start fills with prev_time 25; a blank end with no
later datetime fills with now = 999. -/
theorem C10_blank_fill_witness :
    fix_blank_time_relative 999 ⟨some (-1), TimeSpec.absent, TimeSpec.abs 50, []⟩
        Which.start (some 25) [] =
      some (⟨some (-1), TimeSpec.abs 25, TimeSpec.abs 50, []⟩, some 25, Option.none)
    ∧ fix_blank_time_relative 999 ⟨some (-1), TimeSpec.abs 50, TimeSpec.absent, []⟩
        Which.end_ (some 50) [] =
      some (⟨some (-1), TimeSpec.abs 50, TimeSpec.abs 999, []⟩, some 999, Option.none) := by
  constructor
  · have h := (C10_blank_fill 999 ⟨some (-1), TimeSpec.absent, TimeSpec.abs 50, []⟩
      Which.start (some 25) []).1 25 rfl rfl
    simpa [Fact.set] using h
  · have h := (C10_blank_fill 999 ⟨some (-1), TimeSpec.abs 50, TimeSpec.absent, []⟩
      Which.end_ (some 50) []).2.2.2.1 rfl rfl
    simpa [Fact.set] using h

/-- C1 counterexample: a fact whose start is absent and that no earlier
pass flagged does NOT yield a "could not determine start" conflict — the
checker hits `assert len(found_it) > 0` (transcode.py:728) and crashes, so
no conflict list is produced at all. -/
theorem C1_counterexample_absent_start_asserts :
    verify_sanity_list [] Option.none Option.none []
      [⟨some (-1), TimeSpec.absent, TimeSpec.abs 5, []⟩] = Option.none := by
  decide

/-- C1 (amended): the sanity checker walks the ordered sequence with the
anchors from the bounding stored facts; a fact with an absent start or end
is asserted to have been flagged already (crash when not — nothing new is
emitted); an absolute start before the running prev_time emits "new fact
starts before previous fact ends" referencing the predecessor fact; an
absolute end after the lazily found next_time emits "new fact ends after
next fact starts" referencing the successor fact; and start > end emits
"fact starts after it ends". -/
theorem C1_sanity_conflicts (fact : Fact) (later : List Fact) (prev_time : Option Int)
    (prev_fact : Option Fact) (conflicts : List Conflict) :
    (∀ s e, fact.start = TimeSpec.abs s → fact.end_ = TimeSpec.abs e →
      verify_sanity_step fact later prev_time prev_fact conflicts =
        some (some e,
          ((conflicts
            ++ (match prev_time with
                | some p =>
                  if s < p then [⟨fact, prev_fact, Reason.startBeforePrevEnd⟩] else []
                | Option.none => []))
            ++ (match find_next_datetime later with
                | some (n, nf) =>
                  if n < e then [⟨fact, some nf, Reason.endAfterNextStart⟩] else []
                | Option.none => []))
            ++ (if e < s then [⟨fact, Option.none, Reason.startAfterEnd⟩] else [])))
    ∧ (∀ s, fact.start = TimeSpec.abs s → fact.end_ = TimeSpec.absent →
      verify_sanity_step fact later prev_time prev_fact conflicts =
        (if already_caught fact
            (conflicts
              ++ (match prev_time with
                  | some p =>
                    if s < p then [⟨fact, prev_fact, Reason.startBeforePrevEnd⟩] else []
                  | Option.none => []))
          then some (some s,
            conflicts
              ++ (match prev_time with
                  | some p =>
                    if s < p then [⟨fact, prev_fact, Reason.startBeforePrevEnd⟩] else []
                  | Option.none => []))
          else Option.none))
    ∧ (∀ e, fact.start = TimeSpec.absent → fact.end_ = TimeSpec.abs e →
      verify_sanity_step fact later prev_time prev_fact conflicts =
        (if already_caught fact conflicts
          then some (some e,
            conflicts
              ++ (match find_next_datetime later with
                  | some (n, nf) =>
                    if n < e then [⟨fact, some nf, Reason.endAfterNextStart⟩] else []
                  | Option.none => []))
          else Option.none))
    ∧ (fact.start = TimeSpec.absent → fact.end_ = TimeSpec.absent →
      verify_sanity_step fact later prev_time prev_fact conflicts =
        (if already_caught fact conflicts
          then some (prev_time, conflicts)
          else Option.none))
    ∧ (∀ (tail rest : List Fact) (prev : Option Int) (pf : Option Fact)
        (cs : List Conflict) (f : Fact),
      verify_sanity_list tail prev pf cs (f :: rest) =
        (verify_sanity_step f (rest ++ tail) prev pf cs).bind
          fun s => verify_sanity_list tail s.1 (some f) s.2 rest) := by
  refine ⟨?_, ?_, ?_, ?_, ?_⟩
  · intro s e hs he
    cases hp : prev_time with
    | some p =>
      cases hf : find_next_datetime later with
      | some nn =>
        rcases nn with ⟨n, nf⟩
        simp only [verify_sanity_step, hs, he, hp, hf]
        split_ifs <;> simp_all
      | none =>
        simp only [verify_sanity_step, hs, he, hp, hf]
        split_ifs <;> simp_all
    | none =>
      cases hf : find_next_datetime later with
      | some nn =>
        rcases nn with ⟨n, nf⟩
        simp only [verify_sanity_step, hs, he, hp, hf]
        split_ifs <;> simp_all
      | none =>
        simp only [verify_sanity_step, hs, he, hp, hf]
        split_ifs <;> simp_all
  · intro s hs he
    cases hp : prev_time with
    | some p =>
      simp only [verify_sanity_step, hs, he, hp]
      split_ifs <;> simp_all
    | none =>
      simp only [verify_sanity_step, hs, he, hp]
      split_ifs <;> simp_all
  · intro e hs he
    cases hf : find_next_datetime later with
    | some nn =>
      rcases nn with ⟨n, nf⟩
      simp only [verify_sanity_step, hs, he, hf]
      split_ifs <;> simp_all
    | none =>
      simp only [verify_sanity_step, hs, he, hf]
      split_ifs <;> simp_all
  · intro hs he
    simp only [verify_sanity_step, hs, he]
    split_ifs <;> simp_all
  · intro tail rest prev pf cs f
    rfl

/-- C1 witness: a fact 10–25 with prev_time 30 and a successor starting at
20 emits both the starts-before-previous conflict (referencing the
predecessor) and the ends-after-next conflict (referencing the
successor). -/
theorem C1_sanity_conflicts_witness :
    verify_sanity_step ⟨some (-2), TimeSpec.abs 10, TimeSpec.abs 25, []⟩
      [⟨some (-3), TimeSpec.abs 20, TimeSpec.abs 30, []⟩] (some 30)
      (some ⟨some (-1), TimeSpec.abs 0, TimeSpec.abs 30, []⟩) [] =
    some (some 25,
      [⟨⟨some (-2), TimeSpec.abs 10, TimeSpec.abs 25, []⟩,
        some ⟨some (-1), TimeSpec.abs 0, TimeSpec.abs 30, []⟩,
        Reason.startBeforePrevEnd⟩,
       ⟨⟨some (-2), TimeSpec.abs 10, TimeSpec.abs 25, []⟩,
        some ⟨some (-3), TimeSpec.abs 20, TimeSpec.abs 30, []⟩,
        Reason.endAfterNextStart⟩]) := by
  have h := (C1_sanity_conflicts ⟨some (-2), TimeSpec.abs 10, TimeSpec.abs 25, []⟩
    [⟨some (-3), TimeSpec.abs 20, TimeSpec.abs 30, []⟩] (some 30)
    (some ⟨some (-1), TimeSpec.abs 0, TimeSpec.abs 30, []⟩) []).1 10 25 rfl rfl
  simpa using h

/-- C4 counterexample: importing three drafts where the second overlaps the
third yields TWO internal conflicts — the overlap is reported from both
sides (fact 2's end after fact 3's start, and fact 3's start before fact
2's end) — not exactly one. -/
theorem C4_counterexample_two_conflicts :
    (internal_conflicts (_import_facts 0 Option.none Option.none (fun _ => [])
      [⟨some (-1), TimeSpec.abs 0, TimeSpec.abs 10, []⟩,
       ⟨some (-2), TimeSpec.abs 10, TimeSpec.abs 25, []⟩,
       ⟨some (-3), TimeSpec.abs 20, TimeSpec.abs 30, []⟩])).length = 2 := by
  decide

/-- C4 (amended): any non-empty internal conflict list makes the import
abort with exactly those conflicts, before the per-fact verify_both store
check runs (the outcome is the same for every store-check function) and
before any fact is persisted (the outcome is never reachedSave); the
three-draft overlap instance aborts with exactly two conflicts, each
referencing facts 2 and 3, and zero facts persisted. -/
theorem C4_internal_conflicts_abort :
    (∀ now ante seqt (m : Fact → List Conflict) facts facts' cs,
      must_complete_times now ante seqt facts = some (facts', cs) → cs ≠ [] →
      _import_facts now ante seqt m facts = ImportOutcome.abortedInternal cs)
    ∧ (∀ now ante seqt (m₁ m₂ : Fact → List Conflict) facts facts' cs,
      must_complete_times now ante seqt facts = some (facts', cs) → cs ≠ [] →
      _import_facts now ante seqt m₁ facts = _import_facts now ante seqt m₂ facts)
    ∧ (_import_facts 0 Option.none Option.none (fun _ => [])
        [⟨some (-1), TimeSpec.abs 0, TimeSpec.abs 10, []⟩,
         ⟨some (-2), TimeSpec.abs 10, TimeSpec.abs 25, []⟩,
         ⟨some (-3), TimeSpec.abs 20, TimeSpec.abs 30, []⟩]
      = ImportOutcome.abortedInternal
          [⟨⟨some (-2), TimeSpec.abs 10, TimeSpec.abs 25, []⟩,
            some ⟨some (-3), TimeSpec.abs 20, TimeSpec.abs 30, []⟩,
            Reason.endAfterNextStart⟩,
           ⟨⟨some (-3), TimeSpec.abs 20, TimeSpec.abs 30, []⟩,
            some ⟨some (-2), TimeSpec.abs 10, TimeSpec.abs 25, []⟩,
            Reason.startBeforePrevEnd⟩]) := by
  refine ⟨?_, ?_, ?_⟩
  · intro now ante seqt m facts facts' cs h hne
    simp [_import_facts, h, List.isEmpty_iff, hne]
  · intro now ante seqt m₁ m₂ facts facts' cs h hne
    simp [_import_facts, h, List.isEmpty_iff, hne]
  · decide

/-- C4 witness: the abort clause applied at the concrete three-draft
overlap. -/
theorem C4_internal_conflicts_abort_witness :
    _import_facts 0 Option.none Option.none (fun _ => [])
      [⟨some (-1), TimeSpec.abs 0, TimeSpec.abs 10, []⟩,
       ⟨some (-2), TimeSpec.abs 10, TimeSpec.abs 25, []⟩,
       ⟨some (-3), TimeSpec.abs 20, TimeSpec.abs 30, []⟩]
      = ImportOutcome.abortedInternal
          [⟨⟨some (-2), TimeSpec.abs 10, TimeSpec.abs 25, []⟩,
            some ⟨some (-3), TimeSpec.abs 20, TimeSpec.abs 30, []⟩,
            Reason.endAfterNextStart⟩,
           ⟨⟨some (-3), TimeSpec.abs 20, TimeSpec.abs 30, []⟩,
            some ⟨some (-2), TimeSpec.abs 10, TimeSpec.abs 25, []⟩,
            Reason.startBeforePrevEnd⟩] :=
  C4_internal_conflicts_abort.1 0 Option.none Option.none (fun _ => [])
    [⟨some (-1), TimeSpec.abs 0, TimeSpec.abs 10, []⟩,
     ⟨some (-2), TimeSpec.abs 10, TimeSpec.abs 25, []⟩,
     ⟨some (-3), TimeSpec.abs 20, TimeSpec.abs 30, []⟩]
    [⟨some (-1), TimeSpec.abs 0, TimeSpec.abs 10, []⟩,
     ⟨some (-2), TimeSpec.abs 10, TimeSpec.abs 25, []⟩,
     ⟨some (-3), TimeSpec.abs 20, TimeSpec.abs 30, []⟩]
    [⟨⟨some (-2), TimeSpec.abs 10, TimeSpec.abs 25, []⟩,
      some ⟨some (-3), TimeSpec.abs 20, TimeSpec.abs 30, []⟩,
      Reason.endAfterNextStart⟩,
     ⟨⟨some (-3), TimeSpec.abs 20, TimeSpec.abs 30, []⟩,
      some ⟨some (-2), TimeSpec.abs 10, TimeSpec.abs 25, []⟩,
      Reason.startBeforePrevEnd⟩]
    (by decide) (by decide)

/-- Reference description of the save loop's hint assignment (for C6):
verify_last exactly at the final index, verify_both earlier, following the
loop's idx threading. -/
def batch_hints (n : Nat) : Nat → List Fact → List (Fact × TimeHint)
  | _, [] => []
  | idx, f :: rest =>
    (f, if idx = n - 1 then TimeHint.verify_last else TimeHint.verify_both)
      :: batch_hints n (idx + 1) rest

theorem del_key_id (f : Fact) :
    del_other_edits_key (persist_fact_effect f).pk f.pk = f.pk := by
  cases hp : f.pk with
  | none => simp [del_other_edits_key, persist_fact_effect, save_fact_pk, hp]
  | some p =>
    by_cases h : p < 0
    · simp [del_other_edits_key, persist_fact_effect, save_fact_pk, hp, h]
    · by_cases h0 : p = 0
      · subst h0
        simp [del_other_edits_key, persist_fact_effect, save_fact_pk, hp, h]
      · simp [del_other_edits_key, persist_fact_effect, save_fact_pk, hp, h, h0]

theorem record_go_aligned (facts : List Fact) (n idx : Nat) :
    record_go n idx (facts.map fun f => (f.pk, f)) facts
      = some (batch_hints n idx facts, []) := by
  induction facts generalizing idx with
  | nil => simp [record_go, batch_hints]
  | cons f rest ih =>
    simp [record_go, batch_hints, del_key_id, dict_del, ih]

theorem dict_insert_fresh (k : Option Int) (v : Fact) (m : List (Option Int × Fact))
    (h : k ∉ m.map Prod.fst) : dict_insert k v m = m ++ [(k, v)] := by
  induction m with
  | nil => rfl
  | cons kv rest ih =>
    rcases kv with ⟨k', v'⟩
    simp only [List.map_cons, List.mem_cons] at h
    push_neg at h
    rw [dict_insert, if_neg (Ne.symm h.1), ih h.2]
    rfl

theorem fold_insert_aligned (facts : List Fact) (m : List (Option Int × Fact))
    (h : ((m.map Prod.fst) ++ facts.map Fact.pk).Nodup) :
    facts.foldl (fun m f => dict_insert f.pk f m) m
      = m ++ facts.map fun f => (f.pk, f) := by
  induction facts generalizing m with
  | nil => simp
  | cons f rest ih =>
    have hfresh : f.pk ∉ m.map Prod.fst := by
      rcases List.nodup_append.mp h with ⟨-, -, hdisj⟩
      intro hin
      exact hdisj hin (by simp)
    have hstep : dict_insert f.pk f m = m ++ [(f.pk, f)] :=
      dict_insert_fresh _ _ _ hfresh
    have h' : (((m ++ [(f.pk, f)]).map Prod.fst) ++ rest.map Fact.pk).Nodup := by
      have := h
      simp only [List.map_cons] at this
      rw [List.append_cons] at this
      simpa using this
    calc (f :: rest).foldl (fun m f => dict_insert f.pk f m) m
        = rest.foldl (fun m f => dict_insert f.pk f m) (m ++ [(f.pk, f)]) := by
          rw [List.foldl_cons, hstep]
      _ = (m ++ [(f.pk, f)]) ++ rest.map fun f => (f.pk, f) := ih _ h'
      _ = m ++ (f :: rest).map fun f => (f.pk, f) := by simp

theorem record_ready_facts_eq (ready : List Fact)
    (h : (ready.map Fact.pk).Nodup) :
    record_ready_facts ready = some (batch_hints ready.length 0 ready, []) := by
  unfold record_ready_facts
  rw [fold_insert_aligned ready [] (by simpa using h)]
  simp [record_go_aligned]

/-- C6: over a batch of n ready facts with distinct identities, the save
loop mends and persists exactly the fact at the final index n-1 with time
hint verify_last and every earlier fact with verify_both (the trace of
(fact, hint) mend calls equals the batch_hints assignment, whose i-th hint
is verify_last exactly when idx + i = n - 1). -/
theorem C6_final_fact_verify_last :
    (∀ ready : List Fact, (ready.map Fact.pk).Nodup →
      record_ready_facts ready = some (batch_hints ready.length 0 ready, []))
    ∧ (∀ (n idx : Nat) (facts : List Fact) (i : Nat),
      (batch_hints n idx facts)[i]? =
        (facts[i]?).map fun f =>
          (f, if idx + i = n - 1 then TimeHint.verify_last
              else TimeHint.verify_both)) := by
  constructor
  · intro ready h
    exact record_ready_facts_eq ready h
  · intro n idx facts
    induction facts generalizing idx with
    | nil => intro i; simp [batch_hints]
    | cons f rest ih =>
      intro i
      cases i with
      | zero => simp [batch_hints]
      | succ j =>
        have hadd : idx + 1 + j = idx + (j + 1) := by omega
        simpa [batch_hints, hadd] using ih (idx + 1) j

/-- C6 witness: a two-fact batch mends the first with verify_both and the
second (final) with verify_last. -/
theorem C6_final_fact_verify_last_witness :
    record_ready_facts
      [⟨some (-1), TimeSpec.abs 0, TimeSpec.abs 10, []⟩,
       ⟨some (-2), TimeSpec.abs 10, TimeSpec.abs 20, []⟩]
      = some ([(⟨some (-1), TimeSpec.abs 0, TimeSpec.abs 10, []⟩, TimeHint.verify_both),
               (⟨some (-2), TimeSpec.abs 10, TimeSpec.abs 20, []⟩, TimeHint.verify_last)],
              []) := by
  have h := C6_final_fact_verify_last.1
    [⟨some (-1), TimeSpec.abs 0, TimeSpec.abs 10, []⟩,
     ⟨some (-2), TimeSpec.abs 10, TimeSpec.abs 20, []⟩] (by decide)
  simpa [batch_hints] using h

/-- C8: after persisting each fact (which clears a negative placeholder
pk), the deleted other_edits key falls back to the fact's original
pre-save key, so over pairwise-distinct identities the save loop deletes
precisely every key: the map is empty at batch end and the
`assert len(other_edits) == 0` never fails (record_ready_facts succeeds
with an empty final map rather than crashing). -/
theorem C8_other_edits_consumed :
    (∀ f : Fact, del_other_edits_key (persist_fact_effect f).pk f.pk = f.pk)
    ∧ (∀ ready : List Fact, (ready.map Fact.pk).Nodup →
      ∃ calls, record_ready_facts ready = some (calls, [])) := by
  constructor
  · exact del_key_id
  · intro ready h
    exact ⟨batch_hints ready.length 0 ready, record_ready_facts_eq ready h⟩

/-- C8 witness: a two-fact batch (one negative placeholder pk, one
persisted positive pk) consumes the whole other_edits map. -/
theorem C8_other_edits_consumed_witness :
    del_other_edits_key
      (persist_fact_effect ⟨some (-7), TimeSpec.abs 0, TimeSpec.abs 1, []⟩).pk
      (some (-7)) = some (-7)
    ∧ ∃ calls, record_ready_facts
        [⟨some (-7), TimeSpec.abs 0, TimeSpec.abs 1, []⟩,
         ⟨some 4, TimeSpec.abs 1, TimeSpec.abs 2, []⟩] = some (calls, []) :=
  ⟨C8_other_edits_consumed.1 ⟨some (-7), TimeSpec.abs 0, TimeSpec.abs 1, []⟩,
   C8_other_edits_consumed.2
     [⟨some (-7), TimeSpec.abs 0, TimeSpec.abs 1, []⟩,
      ⟨some 4, TimeSpec.abs 1, TimeSpec.abs 2, []⟩] (by decide)⟩

/-- Confirmed answers among prompts k+1 .. k+n. -/
def count_true (answers : Nat → Bool) : Nat → Nat → Nat
  | _, 0 => 0
  | k, n + 1 => (if answers (k + 1) then 1 else 0) + count_true answers (k + 1) n

theorem confirm_loop_counts (answers : Nat → Bool) (l : List EditConflict)
    (k m : Nat) :
    confirm_loop answers false l k m
      = (k + l.length, m + count_true answers k l.length) := by
  induction l generalizing k m with
  | nil => simp [confirm_loop, count_true]
  | cons x rest ih =>
    simp only [confirm_loop, Bool.not_false, if_true, List.length_cons, count_true]
    rw [ih]
    cases h : answers (k + 1) <;> simp [h, Prod.ext_iff] <;> omega

theorem count_true_le (answers : Nat → Bool) (k n : Nat) :
    count_true answers k n ≤ n := by
  induction n generalizing k with
  | zero => simp [count_true]
  | succ j ih =>
    rw [count_true]
    have := ih (k + 1)
    by_cases h : answers (k + 1) <;> simp [h] <;> omega

theorem count_true_eq_iff (answers : Nat → Bool) (k n : Nat) :
    count_true answers k n = n ↔ ∀ j, k < j → j ≤ k + n → answers j = true := by
  induction n generalizing k with
  | zero =>
    constructor
    · intro _ j h1 h2
      exact absurd h2 (by omega)
    · intro _
      simp [count_true]
  | succ n ih =>
    rw [count_true]
    constructor
    · intro h j hj1 hj2
      have hle := count_true_le answers (k + 1) n
      by_cases ha : answers (k + 1)
      · have hct : count_true answers (k + 1) n = n := by
          simp [ha] at h
          omega
        by_cases hj : j = k + 1
        · subst hj
          exact ha
        · exact (ih (k + 1)).mp hct j (by omega) (by omega)
      · exfalso
        simp [ha] at h
        omega
    · intro hall
      have h1 : answers (k + 1) = true := hall (k + 1) (by omega) (by omega)
      have h2 : count_true answers (k + 1) n = n :=
        (ih (k + 1)).mpr fun j hj1 hj2 => hall j (by omega) (by omega)
      simp [h1, h2]
      omega

theorem must_confirm_not_yes (answers : Nat → Bool) (conflicts : List EditConflict)
    (h : ¬ (cull_stopped_ongoing conflicts).isEmpty) :
    must_confirm_fact_edits answers conflicts false false =
      (if (cull_stopped_ongoing conflicts).length
          = count_true answers 0 (cull_stopped_ongoing conflicts).length
        then ConfirmOutcome.proceed (cull_stopped_ongoing conflicts)
        else ConfirmOutcome.abortRetry (cull_stopped_ongoing conflicts)) := by
  unfold must_confirm_fact_edits
  rw [if_neg h]
  simp only [Bool.or_self, Bool.false_eq_true, if_false]
  rw [confirm_loop_counts]
  simp only [Nat.zero_add, ne_eq, ite_not]

/-- C7: with neither yes nor dry set, the confirmation step prompts on
exactly the conflicts whose edited fact does not carry dirty reason
"stopped" (the culled, auto-closed ongoing fact is never prompted), and the
operation proceeds to saving exactly when every prompted conflict is
confirmed — any rejection aborts before anything is persisted. -/
theorem C7_confirmation_gate (answers : Nat → Bool)
    (conflicts : List EditConflict) :
    (∀ c ∈ cull_stopped_ongoing conflicts, "stopped" ∉ c.edited.dirty_reasons)
    ∧ prompted_of (must_confirm_fact_edits answers conflicts false false)
        = cull_stopped_ongoing conflicts
    ∧ ((∃ p, must_confirm_fact_edits answers conflicts false false
          = ConfirmOutcome.proceed p)
        ↔ ∀ i, 0 < i → i ≤ (cull_stopped_ongoing conflicts).length →
            answers i = true) := by
  refine ⟨?_, ?_, ?_⟩
  · intro c hc
    have := List.of_mem_filter hc
    simpa using this
  · by_cases hemp : (cull_stopped_ongoing conflicts).isEmpty
    · have hnil : cull_stopped_ongoing conflicts = [] := by
        simpa [List.isEmpty_iff] using hemp
      unfold must_confirm_fact_edits
      rw [hnil]
      simp [prompted_of]
    · rw [must_confirm_not_yes answers conflicts hemp]
      by_cases hc : (cull_stopped_ongoing conflicts).length
          = count_true answers 0 (cull_stopped_ongoing conflicts).length
      · rw [if_pos hc]
        rfl
      · rw [if_neg hc]
        rfl
  · by_cases hemp : (cull_stopped_ongoing conflicts).isEmpty
    · have hnil : cull_stopped_ongoing conflicts = [] := by
        simpa [List.isEmpty_iff] using hemp
      constructor
      · intro _ i h1 h2
        rw [hnil] at h2
        simp at h2
        exact absurd h2 (by omega)
      · intro _
        refine ⟨[], ?_⟩
        unfold must_confirm_fact_edits
        rw [hnil]
        simp
    · rw [must_confirm_not_yes answers conflicts hemp]
      by_cases hc : (cull_stopped_ongoing conflicts).length
          = count_true answers 0 (cull_stopped_ongoing conflicts).length
      · constructor
        · intro _ i h1 h2
          exact (count_true_eq_iff answers 0 _).mp hc.symm i (by omega) (by omega)
        · intro _
          refine ⟨cull_stopped_ongoing conflicts, ?_⟩
          rw [if_pos hc]
      · constructor
        · rintro ⟨p, hp⟩
          rw [if_neg hc] at hp
          exact absurd hp (by simp)
        · intro hall
          exact absurd
            (((count_true_eq_iff answers 0
                (cull_stopped_ongoing conflicts).length).mpr
              fun j h1 h2 => hall j h1 (by omega)).symm) hc

/-- C7 witness: of two conflicts, the one whose edited fact carries dirty
reason "stopped" is never prompted; with the remaining prompt confirmed the
operation proceeds. -/
theorem C7_confirmation_gate_witness :
    prompted_of (must_confirm_fact_edits (fun _ => true)
        [⟨⟨some 1, TimeSpec.abs 0, TimeSpec.abs 5, ["stopped"]⟩,
          ⟨some 1, TimeSpec.abs 0, TimeSpec.absent, []⟩⟩,
         ⟨⟨some 2, TimeSpec.abs 5, TimeSpec.abs 9, []⟩,
          ⟨some 2, TimeSpec.abs 5, TimeSpec.abs 8, []⟩⟩] false false)
      = [⟨⟨some 2, TimeSpec.abs 5, TimeSpec.abs 9, []⟩,
          ⟨some 2, TimeSpec.abs 5, TimeSpec.abs 8, []⟩⟩]
    ∧ (∃ p, must_confirm_fact_edits (fun _ => true)
        [⟨⟨some 1, TimeSpec.abs 0, TimeSpec.abs 5, ["stopped"]⟩,
          ⟨some 1, TimeSpec.abs 0, TimeSpec.absent, []⟩⟩,
         ⟨⟨some 2, TimeSpec.abs 5, TimeSpec.abs 9, []⟩,
          ⟨some 2, TimeSpec.abs 5, TimeSpec.abs 8, []⟩⟩] false false
        = ConfirmOutcome.proceed p) := by
  constructor
  · have h := (C7_confirmation_gate (fun _ => true)
      [⟨⟨some 1, TimeSpec.abs 0, TimeSpec.abs 5, ["stopped"]⟩,
        ⟨some 1, TimeSpec.abs 0, TimeSpec.absent, []⟩⟩,
       ⟨⟨some 2, TimeSpec.abs 5, TimeSpec.abs 9, []⟩,
        ⟨some 2, TimeSpec.abs 5, TimeSpec.abs 8, []⟩⟩]).2.1
    rw [h]
    decide
  · exact (C7_confirmation_gate (fun _ => true)
      [⟨⟨some 1, TimeSpec.abs 0, TimeSpec.abs 5, ["stopped"]⟩,
        ⟨some 1, TimeSpec.abs 0, TimeSpec.absent, []⟩⟩,
       ⟨⟨some 2, TimeSpec.abs 5, TimeSpec.abs 9, []⟩,
        ⟨some 2, TimeSpec.abs 5, TimeSpec.abs 8, []⟩⟩]).2.2.mpr
      fun i h1 h2 => rfl

end Dob
